import Mathlib

/-!
Verification of the GPU-host orchestrator (controller + agent + proxy).

The definitions below are a shallow embedding of the Python sources:

* `agent/agent.py` — GPU VRAM bookkeeping (`GPU_USAGE`, `reserve_gpus`,
  `release_gpus`, `release_process_entry`, `get_available_gpu`) and the
  cleanup paths (`_cleanup_deleted_app`, `heartbeat_loop`, `stop_app`);
* `backend/main.py` — the app table (`save_status`, `release_app_port`,
  `update_status`, `cleanup_task`, the upload validation prefix);
* `proxy/proxy.py` — the persistent route map (`add_route`, `remove_route`,
  `generate_config`).

Python dicts are modelled as association lists with insertion-order
semantics (`dget?`, `dinsert`, `derase`, `dmodify`); the port pool
(a Python set) is a `Finset`.  Times and memory amounts are `Int`
(Python integers are unbounded).  HTTP calls, subprocess invocations and
file writes are modelled as explicit effect/event lists.
-/

namespace Orch

/-! ## Association-list model of Python dicts -/

/-- `d.get(k)` / `d[k]` lookup: first binding of the key wins. -/
def dget? {K V : Type} [DecidableEq K] : List (K × V) → K → Option V
  | [], _ => none
  | (k, v) :: rest, key => if k = key then some v else dget? rest key

/-- `d[k] = v`: replace the value in place if the key is present
(keeping its position), otherwise append a new binding. -/
def dinsert {K V : Type} [DecidableEq K] : List (K × V) → K → V → List (K × V)
  | [], key, val => [(key, val)]
  | (k, v) :: rest, key, val =>
    if k = key then (k, val) :: rest else (k, v) :: dinsert rest key val

/-- `d.pop(k, None)`: drop the first binding of the key. -/
def derase {K V : Type} [DecidableEq K] : List (K × V) → K → List (K × V)
  | [], _ => []
  | (k, v) :: rest, key => if k = key then rest else (k, v) :: derase rest key

/-- Update the value at a key in place (an SQL `UPDATE … WHERE id=?`);
no effect when the key is absent. -/
def dmodify {K V : Type} [DecidableEq K] : List (K × V) → K → (V → V) → List (K × V)
  | [], _, _ => []
  | (k, v) :: rest, key, f =>
    if k = key then (k, f v) :: rest else (k, v) :: dmodify rest key f

/-- The keys of a dict, in order. -/
def dkeys {K V : Type} (d : List (K × V)) : List K := d.map Prod.fst

/-! ## Agent: GPU VRAM bookkeeping (`agent/agent.py`) -/

/-- One parsed line of the GPU query tool output:
`index, memory.total, memory.used` (MiB). -/
structure GpuStat where
  idx : Nat
  total : Int
  used : Int
  deriving DecidableEq, Repr

/-- `GPU_USAGE`: reserved VRAM per GPU index. -/
abbrev GpuUsage := List (Nat × Int)

/-- `reserve_gpus(usage)`: increase reserved VRAM for the given GPUs
(`GPU_USAGE[idx] = GPU_USAGE.get(idx, 0) + amount`). -/
def reserveGpus (usage : GpuUsage) (alloc : GpuUsage) : GpuUsage :=
  alloc.foldl (fun u p => dinsert u p.1 ((dget? u p.1).getD 0 + p.2)) usage

/-- `release_gpus(usage)`: decrease reserved VRAM; entries whose remaining
reservation is `≤ 0` are removed from the map. -/
def releaseGpus (usage : GpuUsage) (rel : GpuUsage) : GpuUsage :=
  rel.foldl
    (fun u p =>
      let remaining := (dget? u p.1).getD 0 - p.2
      if 0 < remaining then dinsert u p.1 remaining else derase u p.1)
    usage

/-- Free VRAM of a GPU: `total − used − GPU_USAGE.get(idx, 0)`. -/
def freeOf (usage : GpuUsage) (g : GpuStat) : Int :=
  g.total - g.used - (dget? usage g.idx).getD 0

/-- Stable insertion of a candidate into a list sorted by GPU index
(`candidates.sort(key=lambda t: t[0])`). -/
def insertByIdx (x : Nat × Int) : List (Nat × Int) → List (Nat × Int)
  | [] => [x]
  | y :: ys => if x.1 < y.1 then x :: y :: ys else y :: insertByIdx x ys

/-- Stable sort of the candidate list by GPU index. -/
def sortByIdx (l : List (Nat × Int)) : List (Nat × Int) :=
  l.foldl (fun acc x => insertByIdx x acc) []

/-- First candidate (in index order) whose free VRAM covers the request. -/
def firstFit (required : Int) : List (Nat × Int) → Option Nat
  | [] => none
  | (i, f) :: rest => if required ≤ f then some i else firstFit required rest

/-- The greedy walk of the multi-GPU branch: at each candidate take
`min(free, remaining)`; returns the per-GPU allocation (in walk order)
and the uncovered remainder. -/
def greedyWalk (required : Int) (cands : List (Nat × Int)) : GpuUsage × Int :=
  cands.foldl
    (fun acc c =>
      if acc.2 ≤ 0 then acc
      else (dinsert acc.1 c.1 (min acc.2 c.2), acc.2 - min acc.2 c.2))
    ([], required)

/-- `get_available_gpu(required)` with the `GPU_LOCK` elided: the pure
allocation policy.  Returns the chosen GPU indices (or `none` for
no-capacity) together with the updated `GPU_USAGE`. -/
def getAvailableGpu (info : List GpuStat) (usage : GpuUsage) (required : Int) :
    Option (List Nat) × GpuUsage :=
  if info.isEmpty then (none, usage)
  else
    let candidates :=
      sortByIdx ((info.filter (fun g => 0 < freeOf usage g)).map
        (fun g => (g.idx, freeOf usage g)))
    match candidates with
    | [] => (none, usage)
    | (i, _) :: _ =>
      if required ≤ 0 then (some [i], usage)
      else
        match firstFit required candidates with
        | some j => (some [j], dinsert usage j ((dget? usage j).getD 0 + required))
        | none =>
          let walk := greedyWalk required candidates
          if walk.2 ≤ 0 then (some (dkeys walk.1), reserveGpus usage walk.1)
          else (none, usage)

/-- Outcome of running a block that may try to re-acquire a lock the
current thread already holds (`threading.Lock` is not reentrant, so a
nested acquire blocks forever). -/
inductive LockOutcome (α : Type) where
  | blocked : LockOutcome α
  | ok : α → LockOutcome α
  deriving DecidableEq, Repr

/-- `get_available_gpu(required)` with the `GPU_LOCK` modelled: the whole
policy runs inside `with GPU_LOCK:`, and the multi-GPU commit calls
`reserve_gpus(allocation)` — which itself opens `with GPU_LOCK:` — while
the lock is still held, so that branch blocks instead of returning. -/
def getAvailableGpuLocked (info : List GpuStat) (usage : GpuUsage) (required : Int) :
    LockOutcome (Option (List Nat) × GpuUsage) :=
  if info.isEmpty then .ok (none, usage)
  else
    let candidates :=
      sortByIdx ((info.filter (fun g => 0 < freeOf usage g)).map
        (fun g => (g.idx, freeOf usage g)))
    match candidates with
    | [] => .ok (none, usage)
    | (i, _) :: _ =>
      if required ≤ 0 then .ok (some [i], usage)
      else
        match firstFit required candidates with
        | some j => .ok (some [j], dinsert usage j ((dget? usage j).getD 0 + required))
        | none =>
          let walk := greedyWalk required candidates
          if walk.2 ≤ 0 then .blocked
          else .ok (none, usage)

/-! ## Agent: process registry (`PROCESSES`) -/

/-- A `PROCESSES` entry: `{proc, type, gpus, vram_required}`.  Only the
presence of the process handle matters for the cleanup traces. -/
structure ProcEntry where
  hasProc : Bool
  appType : String
  gpus : Option (List Nat)
  vram : Int
  deriving DecidableEq, Repr

/-- The agent's mutable state: the process registry and `GPU_USAGE`. -/
structure AgentSt where
  processes : List (String × ProcEntry)
  gpuUsage : GpuUsage
  deriving DecidableEq, Repr

/-- `{idx: vram for idx in gpus}` — the per-GPU release map built by
`release_process_entry`: the full `vram_required` for every GPU. -/
def fullVramUsage (gpus : List Nat) (vram : Int) : GpuUsage :=
  gpus.foldl (fun d i => dinsert d i vram) []

/-- `release_process_entry(app_id)`: pop the registry entry and, when it
names GPUs, release the full `vram_required` on each of them. -/
def releaseProcessEntry (s : AgentSt) (appId : String) : AgentSt × Option ProcEntry :=
  match dget? s.processes appId with
  | none => (s, none)
  | some e =>
    let procs := derase s.processes appId
    let g := e.gpus.getD []
    if g.isEmpty then (⟨procs, s.gpuUsage⟩, some e)
    else (⟨procs, releaseGpus s.gpuUsage (fullVramUsage g e.vram)⟩, some e)

/-- The `/run` handler's effect on the agent state (lock-elided): allocate
VRAM via `get_available_gpu` and, on success, insert the registry entry
`{proc: None, type, gpus, vram_required}`. -/
def allocApp (s : AgentSt) (appId : String) (appType : String)
    (info : List GpuStat) (required : Int) : AgentSt :=
  match getAvailableGpu info s.gpuUsage required with
  | (some gpus, usage) =>
    ⟨dinsert s.processes appId ⟨false, appType, some gpus, required⟩, usage⟩
  | (none, usage) => ⟨s.processes, usage⟩

/-- Reserved VRAM currently recorded for a GPU. -/
def reservedOn (s : AgentSt) (idx : Nat) : Int :=
  (dget? s.gpuUsage idx).getD 0

/-- Sum, over alive single-GPU registry entries assigned to the given GPU,
of their full `vram_required` — their share in the sense of the spec's
invariant. -/
def singleGpuShareSum (procs : List (String × ProcEntry)) (idx : Nat) : Int :=
  (procs.filter (fun p => p.2.gpus = some [idx])).foldl (fun a p => a + p.2.vram) 0

/-! ## Agent: cleanup paths as event traces -/

/-- Observable steps of the agent's cleanup routines. -/
inductive CleanupEv where
  | terminate
  | containerStop
  | composeDown
  | removeRoute
  | releaseVram
  | notify
  | dropEntry
  deriving DecidableEq, Repr

/-- `release_process_entry` with its steps made observable: the registry
entry is popped first, then (when it names GPUs) the VRAM is released. -/
def releaseProcessEntryEv (s : AgentSt) (appId : String) :
    (AgentSt × Option ProcEntry) × List CleanupEv :=
  match dget? s.processes appId with
  | none => ((s, none), [])
  | some e =>
    (releaseProcessEntry s appId,
      CleanupEv.dropEntry ::
        (if (e.gpus.getD []).isEmpty then [] else [CleanupEv.releaseVram]))

/-- The container-teardown step chosen by the entry's type:
`docker stop` for `docker` / `docker_tar`, `docker compose down` for
`docker_compose`, nothing otherwise. -/
def containerStopEv (e : ProcEntry) : List CleanupEv :=
  if e.appType = "docker" ∨ e.appType = "docker_tar" then [CleanupEv.containerStop]
  else if e.appType = "docker_compose" then [CleanupEv.composeDown]
  else []

/-- `_cleanup_deleted_app(app_id)` — the cleanup run after a 404 deletion
signal: `release_process_entry` first (drop entry + release VRAM), then
terminate the process when a handle exists, then the best-effort container
stop, then `remove_route`.  No controller notification is made (the routine
is itself triggered by one). -/
def cleanupDeletedApp (s : AgentSt) (appId : String) : AgentSt × List CleanupEv :=
  let r := releaseProcessEntryEv s appId
  let evs :=
    match r.1.2 with
    | some e => (if e.hasProc then [CleanupEv.terminate] else []) ++ containerStopEv e
    | none => []
  (r.1.1, r.2 ++ evs ++ [CleanupEv.removeRoute])

/-- The `/stop` endpoint: 404 (`none`) for an unknown app; otherwise
terminate the process handle, `release_process_entry` (drop entry +
release VRAM), best-effort container stop, remove the route, then notify
the controller with `status=stopped`. -/
def stopAppEv (s : AgentSt) (appId : String) : Option (AgentSt × List CleanupEv) :=
  match dget? s.processes appId with
  | none => none
  | some e =>
    let r := releaseProcessEntryEv s appId
    some (r.1.1,
      (if e.hasProc then [CleanupEv.terminate] else []) ++ r.2 ++ containerStopEv e ++
        [CleanupEv.removeRoute, CleanupEv.notify])

/-- The death branch of `heartbeat_loop` (process found dead, the
`update_status` notification did not answer 404): notify the controller
with the final status, then `remove_route`, then `release_process_entry`. -/
def heartbeatDeadCleanup (s : AgentSt) (appId : String) : AgentSt × List CleanupEv :=
  let r := releaseProcessEntryEv s appId
  (r.1.1, CleanupEv.notify :: CleanupEv.removeRoute :: r.2)

/-- The order claimed by the spec: terminate ≺ container stop ≺ remove
route ≺ release VRAM ≺ notify ≺ drop entry. -/
def claimedCleanupSeq : List CleanupEv :=
  [.terminate, .containerStop, .removeRoute, .releaseVram, .notify, .dropEntry]

/-- A trace respects the claimed order when, for every pair of claimed
steps both present in the trace, their first occurrences appear in the
claimed order. -/
def respectsClaimedOrder (tr : List CleanupEv) : Prop :=
  List.Pairwise (fun a b => a ∈ tr → b ∈ tr → tr.indexOf a < tr.indexOf b)
    claimedCleanupSeq

/-! ## Proxy: route map and config emission (`proxy/proxy.py`) -/

/-- A persisted route entry: the `allow_ips` / `auth_header` keys are
stored only when present. -/
structure RouteInfo where
  port : Int
  allowIps : Option (List String)
  authHeader : Option String
  deriving DecidableEq, Repr

/-- The downstream effects of a route-map mutation. -/
inductive ProxyEff where
  | saveRoutes
  | genConfig
  | reloadProxy
  deriving DecidableEq, Repr

/-- Python truthiness of the `allow_ips` argument / stored key. -/
def truthyList : Option (List String) → Bool
  | none => false
  | some l => !l.isEmpty

/-- Python truthiness of the `auth_header` argument / stored key. -/
def truthyStr : Option String → Bool
  | none => false
  | some s => !s.isEmpty

/-- `add_route(app_id, port, allow_ips, auth_header)`: overwrite the entry,
keeping `allow_ips` / `auth_header` only when truthy, then save the
document, regenerate the config and reload the proxy. -/
def addRoute (routes : List (String × RouteInfo)) (appId : String) (port : Int)
    (allowIps : Option (List String)) (authHeader : Option String) :
    List (String × RouteInfo) × List ProxyEff :=
  let info : RouteInfo :=
    ⟨port, if truthyList allowIps then allowIps else none,
      if truthyStr authHeader then authHeader else none⟩
  (dinsert routes appId info, [.saveRoutes, .genConfig, .reloadProxy])

/-- `remove_route(app_id)`: only when the id is present does it drop the
entry, save, regenerate and reload; otherwise nothing happens. -/
def removeRoute (routes : List (String × RouteInfo)) (appId : String) :
    List (String × RouteInfo) × List ProxyEff :=
  if (dget? routes appId).isSome then
    (derase routes appId, [.saveRoutes, .genConfig, .reloadProxy])
  else (routes, [])

/-- `header.replace('-', '_').lower()` — the nginx variable suffix for the
required header. -/
def normalizeHeaderVar (h : String) : String :=
  (h.replace "-" "_").toLower

/-- The unconditional lines emitted for one route: the canonical redirect
and the proxy block with WebSocket, forwarding, range and buffering
settings. -/
def routeBaseLines (appId : String) (info : RouteInfo) : List String :=
  ["    location = /apps/" ++ appId ++ " \x7b",
   "        return 301 /apps/" ++ appId ++ "/;",
   "    \x7d",
   "    location /apps/" ++ appId ++ "/ \x7b",
   "        rewrite ^/apps/" ++ appId ++ "/(.*)$ /$1 break;",
   "        proxy_pass http://127.0.0.1:" ++ toString info.port ++ "/;",
   "        proxy_http_version 1.1;",
   "        proxy_set_header Upgrade $http_upgrade;",
   "        proxy_set_header Connection \"upgrade\";",
   "        proxy_set_header Host $host;",
   "        proxy_set_header X-Real-IP $remote_addr;",
   "        proxy_set_header X-Forwarded-For $proxy_add_x_forwarded_for;",
   "        proxy_set_header X-Forwarded-Proto $scheme;",
   "        proxy_set_header Range $http_range;",
   "        proxy_set_header If-Range $http_if_range;",
   "        proxy_buffering off;"]

/-- The allow/deny lines: emitted only when the stored `allow_ips` is
truthy. -/
def routeAllowDenyLines (info : RouteInfo) : List String :=
  if truthyList info.allowIps then
    ((info.allowIps.getD []).map (fun ip => "        allow " ++ ip ++ ";")) ++
      ["        deny all;"]
  else []

/-- The auth-header check: emitted only when the stored `auth_header` is
truthy. -/
def routeAuthLines (info : RouteInfo) : List String :=
  if truthyStr info.authHeader then
    ["        if ($http_" ++ normalizeHeaderVar (info.authHeader.getD "") ++
      " = \x27\x27) \x7b return 403; \x7d"]
  else []

/-- All lines emitted for one route. -/
def routeLines (appId : String) (info : RouteInfo) : List String :=
  routeBaseLines appId info ++ routeAllowDenyLines info ++ routeAuthLines info ++
    ["    \x7d"]

/-- `generate_config(routes)`: the full emitted file, line by line. -/
def generateConfigLines (routes : List (String × RouteInfo)) : List String :=
  ["server \x7b", "    listen 8080;"] ++
    (routes.map (fun kv => routeLines kv.1 kv.2)).flatten ++ ["\x7d"]

end Orch

namespace Orch

/-! ## Controller: app table and port pool (`backend/main.py`) -/

/-- One row of the `apps` table.  Nullable columns are `Option`; the
`gpus` column is stored as a comma-joined string, timestamps as epoch
seconds. -/
structure AppRow where
  name : String
  description : Option String
  appType : String
  status : String
  logPath : Option String
  port : Option Int
  lastHeartbeat : Option Int
  url : Option String
  allowIps : Option String
  authHeader : Option String
  gpus : Option String
  vramRequired : Option Int
  deriving DecidableEq, Repr

/-- The apps table: `id → row`. -/
abbrev AppDb := List (String × AppRow)

/-- `",".join(map(str, gpus))` — how `save_status` serialises a GPU list. -/
def joinGpus (gpus : List Nat) : String :=
  String.intercalate "," (gpus.map toString)

/-- Keep the old column value unless the argument was provided. -/
def setOpt {α : Type} (newVal : Option α) (old : Option α) : Option α :=
  match newVal with
  | some v => some v
  | none => old

/-- The `UPDATE` branch of `save_status`: each column is rewritten exactly
when the corresponding argument is not `None`.  Argument order follows the
source: status, log_path, port, heartbeat, name, description, url,
app_type, allow_ips, auth_header, gpus, vram_required. -/
def saveStatusRow (row : AppRow) (status logPath : Option String)
    (port heartbeat : Option Int) (name description url appType : Option String)
    (allowIps authHeader : Option String) (gpus : Option (List Nat))
    (vram : Option Int) : AppRow :=
  { name := name.getD row.name
    description := setOpt description row.description
    appType := appType.getD row.appType
    status := status.getD row.status
    logPath := setOpt logPath row.logPath
    port := setOpt port row.port
    lastHeartbeat := setOpt heartbeat row.lastHeartbeat
    url := setOpt url row.url
    allowIps := setOpt allowIps row.allowIps
    authHeader := setOpt authHeader row.authHeader
    gpus := match gpus with | some g => some (joinGpus g) | none => row.gpus
    vramRequired := setOpt vram row.vramRequired }

/-- `save_status` at the table level.  When the app exists the row is
patched in place; the `INSERT` branch of the source lists 13 columns but
only 12 `?` placeholders, so sqlite raises — modelled as `none`. -/
def saveStatusDb (db : AppDb) (appId : String) (status logPath : Option String)
    (port heartbeat : Option Int) (name description url appType : Option String)
    (allowIps authHeader : Option String) (gpus : Option (List Nat))
    (vram : Option Int) : Option AppDb :=
  match dget? db appId with
  | some _ =>
    some (dmodify db appId (fun row =>
      saveStatusRow row status logPath port heartbeat name description url
        appType allowIps authHeader gpus vram))
  | none => none

/-- `release_app_port(app_id)`: read the row's port; when it is non-null,
add it to `AVAILABLE_PORTS` (no range check) and null the column. -/
def releaseAppPort (db : AppDb) (pool : Finset Int) (appId : String) :
    AppDb × Finset Int :=
  match dget? db appId with
  | some row =>
    match row.port with
    | some p => (dmodify db appId (fun r => { r with port := none }), insert p pool)
    | none => (db, pool)
  | none => (db, pool)

/-- The terminal statuses of `update_status`. -/
def isTerminalStatus (status : String) : Bool :=
  status = "error" ∨ status = "finished" ∨ status = "stopped"

/-- The `/update_status` callback: 404 (`none`) for an unknown app;
otherwise record the status, stamp `last_heartbeat = now` exactly when the
new status is `running`, store the GPU list when provided, and for a
terminal status release the app's port. -/
def updateStatus (db : AppDb) (pool : Finset Int) (appId status : String)
    (gpus : Option (List Nat)) (now : Int) : Option (AppDb × Finset Int) :=
  match dget? db appId with
  | none => none
  | some _ =>
    let hb : Option Int := if status = "running" then some now else none
    match saveStatusDb db appId (some status) none none hb none none none none
        none none gpus none with
    | none => none
    | some db1 =>
      if isTerminalStatus status then some (releaseAppPort db1 pool appId)
      else some (db1, pool)

/-- Default port range: `AVAILABLE_PORTS = set(range(PORT_START, PORT_END))`
with `PORT_START = 9000`, `PORT_END = 9100`. -/
def portStart : Int := 9000

/-- End (exclusive) of the default port range. -/
def portEnd : Int := 9100

/-! ## Controller: upload validation prefix (`upload_app`) -/

/-- Filesystem operations performed by the upload handler. -/
inductive FsOp where
  | mkdir (path : String)
  | writeFile (path : String)
  deriving DecidableEq, Repr

/-- Outcome of the validation prefix of `upload_app`. -/
inductive UploadOutcome where
  | badRequest (detail : String)
  | accepted
  deriving DecidableEq, Repr

/-- `os.path.basename`: the part after the last `/`. -/
def basename (s : String) : String :=
  String.mk ((s.toList.reverse.takeWhile (fun c => c ≠ '/')).reverse)

/-- A character allowed by `ALLOWED_FILENAME = re.compile(r"^[A-Za-z0-9._-]+$")`. -/
def isAllowedFilenameChar (c : Char) : Bool :=
  c.isAlpha || c.isDigit || c = '.' || c = '_' || c = '-'

/-- `ALLOWED_FILENAME.fullmatch(filename)`: non-empty and all characters in
`[A-Za-z0-9._-]`. -/
def allowedFilename (s : String) : Bool :=
  !s.isEmpty && s.toList.all isAllowedFilenameChar

/-- The validation prefix of the `/upload` handler, with its filesystem
side effects recorded in order: reject a duplicate name (before any I/O);
create `uploads/<app_id>/`; then validate the base filename, rejecting with
400; only then write the uploaded file. -/
def uploadPhase (existingNames : List String) (nm : String) (appId : String)
    (origFilename : String) : UploadOutcome × List FsOp :=
  if nm.trim ∈ existingNames then (.badRequest "app name already exists", [])
  else
    let appDir := "./uploads/" ++ appId
    let ops1 := [FsOp.mkdir appDir]
    let filename := basename origFilename
    if !allowedFilename filename then (.badRequest "invalid filename", ops1)
    else (.accepted, ops1 ++ [FsOp.writeFile (appDir ++ "/" ++ filename)])

/-! ## Controller: liveness watchdog (`cleanup_task`) -/

/-- Calls the watchdog issues to the agent for a stale app. -/
inductive AgentCall where
  | stop (appId : String)
  | removeRoute (appId : String)
  deriving DecidableEq, Repr

/-- The app an agent call is about. -/
def AgentCall.appOf : AgentCall → String
  | .stop a => a
  | .removeRoute a => a

/-- The watchdog's selection predicate:
`status='running' AND (last_heartbeat IS NULL OR last_heartbeat < now − 60)`. -/
def isStale (row : AppRow) (now : Int) : Bool :=
  row.status == "running" &&
    (match row.lastHeartbeat with
     | none => true
     | some hb => decide (hb < now - 60))

/-- The ids selected by one tick, in table order. -/
def staleIds (db : AppDb) (now : Int) : List String :=
  dkeys (db.filter (fun kv => isStale kv.2 now))

/-- State threaded through one watchdog tick: the table, the port pool, and
the calls made to the agent so far. -/
structure TickSt where
  db : AppDb
  pool : Finset Int
  calls : List AgentCall

/-- Processing of a single stale app: flip its row to `error` with
`gpus=NULL`, release its port, call the agent's `/stop`, and on a failed
stop fall back to `/remove_route`.  `stopFails` says whether the `/stop`
RPC raises for a given app. -/
def tickStep (stopFails : String → Bool) (st : TickSt) (appId : String) : TickSt :=
  let db1 := dmodify st.db appId (fun r => { r with status := "error", gpus := none })
  let rp := releaseAppPort db1 st.pool appId
  { db := rp.1
    pool := rp.2
    calls := st.calls ++ (AgentCall.stop appId ::
      (if stopFails appId then [AgentCall.removeRoute appId] else [])) }

/-- One tick of `cleanup_task` (after its 30 s sleep): select the stale
running apps from the current table, then process each in order. -/
def cleanupTick (stopFails : String → Bool) (now : Int) (db : AppDb)
    (pool : Finset Int) : TickSt :=
  (staleIds db now).foldl (tickStep stopFails) ⟨db, pool, []⟩

/-- The GPU inventory of the claim's scenario (and of the repository test
`tests/test_gpu_usage.py::test_multi_gpu_allocation`): two GPUs with
`total=40000`, `used=1000`, so 39000 MiB free each. -/
def c1Info : List GpuStat := [⟨0, 40000, 1000⟩, ⟨1, 40000, 1000⟩]

/-- Initial agent state: empty registry, empty `GPU_USAGE`. -/
def agentSt0 : AgentSt := ⟨[], []⟩

/-- GPU inventory used for the bookkeeping trace: two GPUs with
10000 MiB total and nothing used by the device. -/
def c2Info : List GpuStat := [⟨0, 10000, 0⟩, ⟨1, 10000, 0⟩]

/-- State after allocating app `A` (12000 MiB, multi-GPU: shares
10000 on GPU 0 and 2000 on GPU 1). -/
def c2s1 : AgentSt := allocApp agentSt0 "A" "gradio" c2Info 12000

/-- State after additionally allocating app `B` (5000 MiB, single-GPU
on GPU 1). -/
def c2s2 : AgentSt := allocApp c2s1 "B" "gradio" c2Info 5000

/-- State after removing app `A` via `release_process_entry`. -/
def c2s3 : AgentSt := (releaseProcessEntry c2s2 "A").1

/-- A one-row table used to instantiate the `update_status` theorem. -/
def c3Row : AppRow :=
  ⟨"demo", none, "gradio", "running", none, some 9000, some 40, none, none, none,
    some "0", some 1000⟩

/-- A running app whose heartbeat is 90 s old at `now = 1000` (stale). -/
def c4RowA : AppRow :=
  ⟨"a-app", none, "gradio", "running", none, some 9001, some 910, none, none, none,
    none, none⟩

/-- A running app with a fresh heartbeat at `now = 1000`. -/
def c4RowB : AppRow :=
  ⟨"b-app", none, "gradio", "running", none, some 9002, some 995, none, none, none,
    none, none⟩

/-- A two-app table for the watchdog scenario. -/
def c4db : AppDb := [("a", c4RowA), ("b", c4RowB)]

/-- An app row whose stored port 99999 lies outside `[PORT_START, PORT_END)`. -/
def c6Row : AppRow :=
  ⟨"oddport", none, "gradio", "stopped", none, some 99999, none, none, none, none,
    none, none⟩

/-- A one-app table holding the out-of-range port. -/
def c6db : AppDb := [("a", c6Row)]

/-- A docker app with a live process handle and one GPU reserved. -/
def c5Entry : ProcEntry := ⟨true, "docker", some [0], 100⟩

/-- Agent state holding that single docker app. -/
def c5St : AgentSt := ⟨[("a", c5Entry)], [(0, 100)]⟩

end Orch

namespace Orch

/-! ## Theorems -/

/-! ### Dictionary lemmas -/

theorem dget_dmodify_self {K V : Type} [DecidableEq K] {d : List (K × V)} {k : K}
    {v : V} (f : V → V) (h : dget? d k = some v) :
    dget? (dmodify d k f) k = some (f v) := by
  induction d with
  | nil => simp [dget?] at h
  | cons hd tl ih =>
    by_cases hk : hd.1 = k
    · simp [dget?, hk] at h
      simp [dmodify, dget?, hk, h]
    · simp [dget?, hk] at h
      simp [dmodify, dget?, hk, ih h]

theorem dget_dmodify_ne {K V : Type} [DecidableEq K] (d : List (K × V)) (k k' : K)
    (f : V → V) (h : k' ≠ k) :
    dget? (dmodify d k f) k' = dget? d k' := by
  have hk2 : ¬ k = k' := fun e => h e.symm
  induction d with
  | nil => simp [dmodify]
  | cons hd tl ih =>
    by_cases hk : hd.1 = k
    · simp [dmodify, dget?, hk, hk2]
    · by_cases hk' : hd.1 = k'
      · simp [dmodify, dget?, hk, hk', h]
      · simp [dmodify, dget?, hk, hk', ih]

theorem dget_dinsert_self {K V : Type} [DecidableEq K] (d : List (K × V)) (k : K)
    (v : V) : dget? (dinsert d k v) k = some v := by
  induction d with
  | nil => simp [dinsert, dget?]
  | cons hd tl ih =>
    by_cases hk : hd.1 = k
    · simp [dinsert, dget?, hk]
    · simp [dinsert, dget?, hk, ih]

theorem dget_dinsert_ne {K V : Type} [DecidableEq K] (d : List (K × V)) (k k' : K)
    (v : V) (h : k' ≠ k) : dget? (dinsert d k v) k' = dget? d k' := by
  have hk2 : ¬ k = k' := fun e => h e.symm
  induction d with
  | nil => simp [dinsert, dget?, hk2]
  | cons hd tl ih =>
    by_cases hk : hd.1 = k
    · simp [dinsert, dget?, hk, hk2]
    · by_cases hk' : hd.1 = k'
      · simp [dinsert, dget?, hk, hk', h]
      · simp [dinsert, dget?, hk, hk', ih]

/-- The row update performed by `update_status`: the status column, a
heartbeat stamp only for `running`, and the GPU list when provided. -/
theorem saveStatusRow_update_status (row : AppRow) (status : String)
    (hb : Option Int) (gpus : Option (List Nat)) :
    saveStatusRow row (some status) none none hb none none none none none none
        gpus none =
      { row with
          status := status
          lastHeartbeat := setOpt hb row.lastHeartbeat
          gpus := match gpus with | some g => some (joinGpus g) | none => row.gpus } :=
  rfl

/-- **C1.** On `{0: total=40000,used=1000; 1: total=40000,used=1000}` with no
prior reservations, `allocate(60000)` is claimed to return `[0,1]` with
reservations `39000` on GPU 0 and `21000` on GPU 1 (the repository's own
test asserts exactly this).  The lock-elided allocation policy does produce
that result, but the real `get_available_gpu` executes the multi-GPU commit
`reserve_gpus(allocation)` while already holding the non-reentrant
`GPU_LOCK`, so the call blocks forever instead of returning. -/
theorem get_available_gpu_multi_commit_blocks :
    getAvailableGpuLocked c1Info [] 60000 = .blocked ∧
    getAvailableGpu c1Info [] 60000 = (some [0, 1], [(0, 39000), (1, 21000)]) := by
  decide

/-- **C2.** The spec's invariant fails: after allocating `A` (multi-GPU,
shares 10000/2000 of its 12000 MiB) and `B` (single-GPU, 5000 MiB on
GPU 1), removing `A` releases the full 12000 MiB on *each* of its GPUs —
not its shares — wiping out GPU 1's entry entirely.  `B` is still alive
with a 5000 MiB share on GPU 1, yet the recorded reservation is 0. -/
theorem release_process_entry_over_releases :
    c2s1.gpuUsage = [(0, 10000), (1, 2000)] ∧
    dget? c2s1.processes "A" = some ⟨false, "gradio", some [0, 1], 12000⟩ ∧
    c2s2.gpuUsage = [(0, 10000), (1, 7000)] ∧
    c2s3.processes = [("B", ⟨false, "gradio", some [1], 5000⟩)] ∧
    singleGpuShareSum c2s3.processes 1 = 5000 ∧
    c2s3.gpuUsage = [] ∧
    reservedOn c2s3 1 = 0 := by
  decide

/-- **C3.** For every `update_status` callback on a known app: the stored
`last_heartbeat` becomes `now` exactly when the new status is `running`
(any other status leaves it unchanged), and a terminal status
(`error` / `finished` / `stopped`) nulls the port column and returns the
stored port (when present) to the free pool; a non-terminal status leaves
port and pool alone. -/
theorem update_status_heartbeat_iff_running
    (db : AppDb) (pool : Finset Int) (appId status : String)
    (gpus : Option (List Nat)) (now : Int) (row : AppRow)
    (h : dget? db appId = some row) :
    ∃ db1 pool1 row1,
      updateStatus db pool appId status gpus now = some (db1, pool1) ∧
      dget? db1 appId = some row1 ∧
      row1.status = status ∧
      row1.lastHeartbeat =
        (if status = "running" then some now else row.lastHeartbeat) ∧
      (isTerminalStatus status = true →
        row1.port = none ∧
        pool1 = (match row.port with | some p => insert p pool | none => pool)) ∧
      (isTerminalStatus status = false →
        row1.port = row.port ∧ pool1 = pool) := by
  have hb :
      setOpt (if status = "running" then some now else none) row.lastHeartbeat =
        (if status = "running" then some now else row.lastHeartbeat) := by
    by_cases hr : status = "running" <;> simp [hr, setOpt]
  set fupd : AppRow → AppRow := fun r =>
    saveStatusRow r (some status) none none
      (if status = "running" then some now else none) none none none none none none
      gpus none with hfupd
  have hmod : dget? (dmodify db appId fupd) appId = some (fupd row) :=
    dget_dmodify_self fupd h
  have hstat : (fupd row).status = status := rfl
  have hport : (fupd row).port = row.port := rfl
  have hhb : (fupd row).lastHeartbeat =
      (if status = "running" then some now else row.lastHeartbeat) := hb
  by_cases ht : isTerminalStatus status = true
  · cases hp : row.port with
    | some p =>
      have h1 : updateStatus db pool appId status gpus now =
          some (dmodify (dmodify db appId fupd) appId (fun r => { r with port := none }),
            insert p pool) := by
        simp only [updateStatus, saveStatusDb, h, ht, if_true, releaseAppPort, hmod,
          hport, hp]
      have h2 : dget? (dmodify (dmodify db appId fupd) appId
          (fun r => { r with port := none })) appId = some { fupd row with port := none } :=
        dget_dmodify_self _ hmod
      exact ⟨_, _, { fupd row with port := none }, h1, h2, hstat, hhb,
        fun _ => ⟨rfl, by simp [hp]⟩, fun hf => absurd ht (by simp [hf])⟩
    | none =>
      have h1 : updateStatus db pool appId status gpus now =
          some (dmodify db appId fupd, pool) := by
        simp only [updateStatus, saveStatusDb, h, ht, if_true, releaseAppPort, hmod,
          hport, hp]
      exact ⟨_, _, fupd row, h1, hmod, hstat, hhb,
        fun _ => ⟨hport.trans hp, by simp [hp]⟩, fun hf => absurd ht (by simp [hf])⟩
  · have h1 : updateStatus db pool appId status gpus now =
        some (dmodify db appId fupd, pool) := by
      simp only [updateStatus, saveStatusDb, h, ht, if_false, Bool.not_eq_true]
      simp [ht]
    exact ⟨_, _, fupd row, h1, hmod, hstat, hhb,
      fun htr => absurd htr ht, fun _ => ⟨hport, rfl⟩⟩

/-- Witness for C3: the concrete app `a` in status `running` with port 9000
receives status `stopped`; the theorem applies and the hypothesis is
discharged by evaluation. -/
theorem update_status_heartbeat_iff_running_witness :
    ∃ db1 pool1 row1,
      updateStatus [("a", c3Row)] ∅ "a" "stopped" none 100 = some (db1, pool1) ∧
      dget? db1 "a" = some row1 ∧
      row1.status = "stopped" ∧
      row1.lastHeartbeat =
        (if "stopped" = "running" then some 100 else c3Row.lastHeartbeat) ∧
      (isTerminalStatus "stopped" = true →
        row1.port = none ∧
        pool1 = (match c3Row.port with | some p => insert p (∅ : Finset Int) | none => ∅)) ∧
      (isTerminalStatus "stopped" = false →
        row1.port = c3Row.port ∧ pool1 = ∅) :=
  update_status_heartbeat_iff_running [("a", c3Row)] ∅ "a" "stopped" none 100 c3Row rfl

/-! ### Watchdog lemmas -/

theorem mem_of_dget {K V : Type} [DecidableEq K] {d : List (K × V)} {k : K} {v : V}
    (h : dget? d k = some v) : (k, v) ∈ d := by
  induction d with
  | nil => simp [dget?] at h
  | cons hd tl ih =>
    obtain ⟨a, b⟩ := hd
    by_cases hk : a = k
    · subst hk
      simp [dget?] at h
      subst h
      exact List.mem_cons_self _ _
    · simp [dget?, hk] at h
      exact List.mem_cons_of_mem _ (ih h)

theorem dget_of_mem_nodup {K V : Type} [DecidableEq K] {d : List (K × V)} {k : K}
    {v : V} (hnd : (dkeys d).Nodup) (h : (k, v) ∈ d) : dget? d k = some v := by
  induction d with
  | nil => simp at h
  | cons hd tl ih =>
    obtain ⟨a, b⟩ := hd
    rw [dkeys, List.map_cons, List.nodup_cons] at hnd
    rcases List.mem_cons.mp h with heq | hmem
    · injection heq with h1 h2
      subst h1
      subst h2
      simp [dget?]
    · by_cases hk : a = k
      · subst hk
        exact absurd (List.mem_map_of_mem Prod.fst hmem) hnd.1
      · rw [dget?, if_neg hk]
        exact ih hnd.2 hmem

theorem staleIds_sublist (db : AppDb) (now : Int) :
    List.Sublist (staleIds db now) (dkeys db) :=
  List.Sublist.map Prod.fst (List.filter_sublist db)

theorem mem_staleIds {db : AppDb} {appId : String} {row : AppRow} {now : Int}
    (h : dget? db appId = some row) (hst : isStale row now = true) :
    appId ∈ staleIds db now := by
  have hm : (appId, row) ∈ db.filter (fun kv => isStale kv.2 now) :=
    List.mem_filter.mpr ⟨mem_of_dget h, by simpa using hst⟩
  simpa [staleIds, dkeys] using List.mem_map_of_mem Prod.fst hm

theorem not_mem_staleIds {db : AppDb} {appId : String} {row : AppRow} {now : Int}
    (hnd : (dkeys db).Nodup) (h : dget? db appId = some row)
    (hst : isStale row now = false) : appId ∉ staleIds db now := by
  intro hmem
  obtain ⟨kv, hin, hk⟩ := List.mem_map.mp hmem
  obtain ⟨hdb, hpred⟩ := List.mem_filter.mp hin
  obtain ⟨a, b⟩ := kv
  subst hk
  have hq := dget_of_mem_nodup hnd hdb
  rw [h] at hq
  cases hq
  simp [hst] at hpred

theorem tickStep_db_ne (f : String → Bool) (st : TickSt) (i appId : String)
    (h : appId ≠ i) :
    dget? (tickStep f st i).db appId = dget? st.db appId := by
  have h1 : dget? (dmodify st.db i
      (fun r => { r with status := "error", gpus := none })) appId = dget? st.db appId :=
    dget_dmodify_ne _ _ _ _ h
  simp only [tickStep, releaseAppPort]
  cases hq : dget? (dmodify st.db i
      (fun r => { r with status := "error", gpus := none })) i with
  | none => simpa [hq] using h1
  | some r =>
    cases hr : r.port with
    | some p =>
      simp only [hq, hr]
      rw [dget_dmodify_ne _ _ _ _ h]
      exact h1
    | none => simpa [hq, hr] using h1

theorem tickStep_pool_mono (f : String → Bool) (st : TickSt) (i : String) (p : Int)
    (h : p ∈ st.pool) : p ∈ (tickStep f st i).pool := by
  simp only [tickStep, releaseAppPort]
  cases hq : dget? (dmodify st.db i
      (fun r => { r with status := "error", gpus := none })) i with
  | none => simpa [hq] using h
  | some r =>
    cases hr : r.port with
    | some q => simpa [hq, hr] using Finset.mem_insert_of_mem h
    | none => simpa [hq, hr] using h

theorem tickStep_calls_mono (f : String → Bool) (st : TickSt) (i : String)
    (c : AgentCall) (h : c ∈ st.calls) : c ∈ (tickStep f st i).calls :=
  List.mem_append_left _ h

theorem tickStep_calls_sub (f : String → Bool) (st : TickSt) (i : String)
    (c : AgentCall) (h : c ∈ (tickStep f st i).calls) :
    c ∈ st.calls ∨ c.appOf = i := by
  rcases List.mem_append.mp h with h1 | h2
  · exact .inl h1
  · right
    rcases List.mem_cons.mp h2 with rfl | h3
    · rfl
    · by_cases hf : f i
      · rcases List.mem_singleton.mp (by simpa [hf] using h3) with rfl
        rfl
      · simp [hf] at h3

theorem foldl_db_not_mem (f : String → Bool) (ids : List String) (st : TickSt)
    (appId : String) (h : appId ∉ ids) :
    dget? ((ids.foldl (tickStep f) st).db) appId = dget? st.db appId := by
  induction ids generalizing st with
  | nil => rfl
  | cons i rest ih =>
    rw [List.foldl_cons]
    rw [ih _ (fun hm => h (List.mem_cons_of_mem _ hm))]
    exact tickStep_db_ne f st i appId (fun e => h (e ▸ List.mem_cons_self _ _))

theorem foldl_pool_mono (f : String → Bool) (ids : List String) (st : TickSt)
    (p : Int) (h : p ∈ st.pool) : p ∈ ((ids.foldl (tickStep f) st).pool) := by
  induction ids generalizing st with
  | nil => exact h
  | cons i rest ih =>
    rw [List.foldl_cons]
    exact ih _ (tickStep_pool_mono f st i p h)

theorem foldl_calls_mono (f : String → Bool) (ids : List String) (st : TickSt)
    (c : AgentCall) (h : c ∈ st.calls) : c ∈ ((ids.foldl (tickStep f) st).calls) := by
  induction ids generalizing st with
  | nil => exact h
  | cons i rest ih =>
    rw [List.foldl_cons]
    exact ih _ (tickStep_calls_mono f st i c h)

theorem foldl_calls_sub (f : String → Bool) (ids : List String) (st : TickSt)
    (c : AgentCall) (h : c ∈ ((ids.foldl (tickStep f) st).calls)) :
    c ∈ st.calls ∨ c.appOf ∈ ids := by
  induction ids generalizing st with
  | nil => exact .inl h
  | cons i rest ih =>
    rw [List.foldl_cons] at h
    rcases ih _ h with h1 | h2
    · rcases tickStep_calls_sub f st i c h1 with h3 | h4
      · exact .inl h3
      · exact .inr (h4 ▸ List.mem_cons_self _ _)
    · exact .inr (List.mem_cons_of_mem _ h2)

theorem tickStep_self (f : String → Bool) (st : TickSt) (appId : String)
    (row : AppRow) (h : dget? st.db appId = some row) :
    dget? (tickStep f st appId).db appId =
      some { row with status := "error", gpus := none, port := none } ∧
    (∀ p, row.port = some p → p ∈ (tickStep f st appId).pool) ∧
    AgentCall.stop appId ∈ (tickStep f st appId).calls ∧
    (f appId = true → AgentCall.removeRoute appId ∈ (tickStep f st appId).calls) := by
  have h1 : dget? (dmodify st.db appId
      (fun r => { r with status := "error", gpus := none })) appId =
      some { row with status := "error", gpus := none } :=
    dget_dmodify_self _ h
  have hcs : AgentCall.stop appId ∈ (tickStep f st appId).calls := by
    simp [tickStep]
  have hcr : f appId = true →
      AgentCall.removeRoute appId ∈ (tickStep f st appId).calls := by
    intro hf
    simp [tickStep, hf]
  cases hp : row.port with
  | some p =>
    refine ⟨?_, ?_, hcs, hcr⟩
    · simp only [tickStep, releaseAppPort, h1, hp]
      exact dget_dmodify_self _ h1
    · intro q hq
      injection hq with hpq
      subst hpq
      simp only [tickStep, releaseAppPort, h1, hp]
      exact Finset.mem_insert_self _ _
  | none =>
    refine ⟨?_, ?_, hcs, hcr⟩
    · rw [show ({ row with status := "error", gpus := none, port := none} : AppRow) =
        { row with status := "error", gpus := none} from by rw [← hp]]
      simp only [tickStep, releaseAppPort, h1, hp]
    · intro q hq
      exact absurd hq (by simp)

/-- **C4.** One watchdog tick: every app whose status is `running` and whose
heartbeat is null or older than `now − 60` is flipped to `error` with
`gpus=NULL`, its port is nulled and returned to the free pool, the agent's
`/stop` is called for it, and `/remove_route` is additionally called when
the stop RPC fails.  Apps that are not stale (fresh heartbeat or
non-running status) keep their row unchanged and receive no agent call. -/
theorem cleanup_tick_flips_stale_running_apps
    (db : AppDb) (pool : Finset Int) (stopFails : String → Bool) (now : Int)
    (appId : String) (row : AppRow)
    (hnd : (dkeys db).Nodup) (h : dget? db appId = some row) :
    (isStale row now = true →
      dget? (cleanupTick stopFails now db pool).db appId =
        some { row with status := "error", gpus := none, port := none } ∧
      (∀ p, row.port = some p → p ∈ (cleanupTick stopFails now db pool).pool) ∧
      AgentCall.stop appId ∈ (cleanupTick stopFails now db pool).calls ∧
      (stopFails appId = true →
        AgentCall.removeRoute appId ∈ (cleanupTick stopFails now db pool).calls)) ∧
    (isStale row now = false →
      dget? (cleanupTick stopFails now db pool).db appId = some row ∧
      AgentCall.stop appId ∉ (cleanupTick stopFails now db pool).calls ∧
      AgentCall.removeRoute appId ∉ (cleanupTick stopFails now db pool).calls) := by
  constructor
  · intro hst
    have hndStale : (staleIds db now).Nodup :=
      (staleIds_sublist db now).nodup hnd
    obtain ⟨l1, l2, hsplit⟩ := List.append_of_mem (mem_staleIds h hst)
    have hnd2 := hsplit ▸ hndStale
    rw [List.nodup_append] at hnd2
    have hnotl1 : appId ∉ l1 := fun hm => hnd2.2.2 hm (List.mem_cons_self _ _)
    have hnotl2 : appId ∉ l2 := ((List.nodup_cons.mp hnd2.2.1).1)
    rw [cleanupTick, hsplit, List.foldl_append, List.foldl_cons]
    have hrow1 : dget? (l1.foldl (tickStep stopFails) ⟨db, pool, []⟩).db appId =
        some row := by
      rw [foldl_db_not_mem stopFails l1 _ appId hnotl1]
      exact h
    obtain ⟨hdb2, hpool2, hstop2, hrr2⟩ :=
      tickStep_self stopFails (l1.foldl (tickStep stopFails) ⟨db, pool, []⟩)
        appId row hrow1
    refine ⟨?_, ?_, ?_, ?_⟩
    · rw [foldl_db_not_mem stopFails l2 _ appId hnotl2]
      exact hdb2
    · intro p hp
      exact foldl_pool_mono stopFails l2 _ p (hpool2 p hp)
    · exact foldl_calls_mono stopFails l2 _ _ hstop2
    · intro hf
      exact foldl_calls_mono stopFails l2 _ _ (hrr2 hf)
  · intro hst
    have hnm : appId ∉ staleIds db now := not_mem_staleIds hnd h hst
    refine ⟨?_, ?_, ?_⟩
    · rw [cleanupTick, foldl_db_not_mem stopFails _ _ appId hnm]
      exact h
    · intro hc
      rcases foldl_calls_sub stopFails _ _ _ hc with h1 | h2
      · simp at h1
      · exact hnm h2
    · intro hc
      rcases foldl_calls_sub stopFails _ _ _ hc with h1 | h2
      · simp at h1
      · exact hnm h2

/-- Witness for C4: the spec's heartbeat-loss scenario.  App `a` is
`running` with `last_heartbeat = now − 90`; one tick flips it to `error`
with port nulled, and `/stop` is called (with the `/remove_route` fallback
when the stop fails); the fresh app `b` is untouched. -/
theorem cleanup_tick_flips_stale_running_apps_witness :
    dget? (cleanupTick (fun _ => true) 1000 c4db ∅).db "a" =
      some { c4RowA with status := "error", gpus := none, port := none } ∧
    (∀ p, c4RowA.port = some p → p ∈ (cleanupTick (fun _ => true) 1000 c4db ∅).pool) ∧
    AgentCall.stop "a" ∈ (cleanupTick (fun _ => true) 1000 c4db ∅).calls ∧
    AgentCall.removeRoute "a" ∈ (cleanupTick (fun _ => true) 1000 c4db ∅).calls ∧
    dget? (cleanupTick (fun _ => true) 1000 c4db ∅).db "b" = some c4RowB ∧
    AgentCall.stop "b" ∉ (cleanupTick (fun _ => true) 1000 c4db ∅).calls := by
  have ha := cleanup_tick_flips_stale_running_apps c4db ∅ (fun _ => true) 1000 "a"
    c4RowA (by decide) rfl
  have hb := cleanup_tick_flips_stale_running_apps c4db ∅ (fun _ => true) 1000 "b"
    c4RowB (by decide) rfl
  obtain ⟨ha1, ha2, ha3, ha4⟩ := ha.1 (by decide)
  obtain ⟨hb1, hb2, _⟩ := hb.2 (by decide)
  exact ⟨ha1, ha2, ha3, ha4 rfl, hb1, hb2⟩

/-- **C6 (counterexample).** The claim says an out-of-range port is silently
ignored by the release, leaving the pool unchanged.  In fact
`release_app_port` performs no range check at all: releasing the app whose
stored port is 99999 — far outside the default range `[9000, 9100)` — adds
99999 to the free pool. -/
theorem release_app_port_out_of_range_added :
    (releaseAppPort c6db ∅ "a").2 = {99999} ∧
    ¬ (portStart ≤ 99999 ∧ (99999 : Int) < portEnd) := by
  decide

/-- **C6 (amended).** `release_app_port` re-adds whatever non-null port the
app row stores — with no range check whatsoever — and nulls the port
column; it is a no-op only when the row's port is already null (or the app
is unknown). -/
theorem release_app_port_unconditional
    (db : AppDb) (pool : Finset Int) (appId : String) (row : AppRow)
    (h : dget? db appId = some row) :
    (∀ p, row.port = some p →
      (releaseAppPort db pool appId).2 = insert p pool ∧
      dget? (releaseAppPort db pool appId).1 appId = some { row with port := none }) ∧
    (row.port = none → releaseAppPort db pool appId = (db, pool)) := by
  constructor
  · intro p hp
    constructor
    · simp only [releaseAppPort, h, hp]
    · simp only [releaseAppPort, h, hp]
      exact dget_dmodify_self _ h
  · intro hp
    simp only [releaseAppPort, h, hp]

/-- Witness for the amended C6: releasing the concrete app with stored
port 99999 puts 99999 into the pool and nulls the column. -/
theorem release_app_port_unconditional_witness :
    (∀ p, c6Row.port = some p →
      (releaseAppPort c6db ∅ "a").2 = insert p (∅ : Finset Int) ∧
      dget? (releaseAppPort c6db ∅ "a").1 "a" = some { c6Row with port := none }) ∧
    (c6Row.port = none → releaseAppPort c6db ∅ "a" = (c6db, ∅)) :=
  release_app_port_unconditional c6db ∅ "a" c6Row rfl

/-- **C7 (counterexample).** The claim says an invalid filename is rejected
with 400 *before any filesystem I/O*.  The handler does answer 400 for
`foo bar.zip`, but only after `os.makedirs` has already created the per-app
upload directory, so the effect list is not empty. -/
theorem upload_invalid_filename_creates_dir :
    uploadPhase [] "myapp" "0f3c" "foo bar.zip" =
      (.badRequest "invalid filename", [FsOp.mkdir "./uploads/0f3c"]) ∧
    (uploadPhase [] "myapp" "0f3c" "foo bar.zip").2 ≠ [] := by
  decide

/-- **C7 (amended).** For every upload whose base filename fails the
`[A-Za-z0-9._-]+` pattern (and whose app name is not a duplicate), the
handler answers 400 having created exactly the per-app upload directory
and written no file. -/
theorem upload_invalid_filename_rejected_after_mkdir
    (existingNames : List String) (nm appId origFilename : String)
    (hname : nm.trim ∉ existingNames)
    (hfn : allowedFilename (basename origFilename) = false) :
    uploadPhase existingNames nm appId origFilename =
      (.badRequest "invalid filename", [FsOp.mkdir ("./uploads/" ++ appId)]) := by
  simp only [uploadPhase, hname, if_false, hfn]
  simp

/-- Witness for the amended C7: the spec's own example `foo bar.zip`. -/
theorem upload_invalid_filename_rejected_after_mkdir_witness :
    uploadPhase [] "myapp" "0f3c" "foo bar.zip" =
      (.badRequest "invalid filename", [FsOp.mkdir "./uploads/0f3c"]) :=
  upload_invalid_filename_rejected_after_mkdir [] "myapp" "0f3c" "foo bar.zip"
    (by decide) (by decide)

/-- **C5 (counterexample).** The claimed cleanup order — terminate, then
container stop, then remove route, then release VRAM, then notify, then
drop the registry entry — does not hold: after the 404 deletion signal the
agent's `_cleanup_deleted_app` drops the registry entry and releases the
VRAM *first* (inside `release_process_entry`), before terminating the
process; its trace for a concrete docker app refutes the claimed order. -/
theorem cleanup_deleted_app_order_counterexample :
    (cleanupDeletedApp c5St "a").2 =
      [.dropEntry, .releaseVram, .terminate, .containerStop, .removeRoute] ∧
    ¬ respectsClaimedOrder (cleanupDeletedApp c5St "a").2 := by
  constructor
  · decide
  · intro h
    unfold respectsClaimedOrder claimedCleanupSeq at h
    revert h
    decide

/-- **C5 (amended).** The actual orders, for an app with a live process
handle of type `docker` and at least one reserved GPU: the 404-deletion
cleanup drops the registry entry and releases its VRAM, then terminates the
process, then stops the container, then removes the route (no controller
notification); `/stop` terminates, then drops the entry and releases VRAM,
then stops the container, then removes the route, then notifies; the
heartbeat death path notifies first, then removes the route, then drops the
entry and releases VRAM. -/
theorem agent_cleanup_actual_order
    (s : AgentSt) (appId : String) (gpus : List Nat) (vram : Int)
    (h : dget? s.processes appId = some ⟨true, "docker", some gpus, vram⟩)
    (hg : gpus ≠ []) :
    (cleanupDeletedApp s appId).2 =
      [.dropEntry, .releaseVram, .terminate, .containerStop, .removeRoute] ∧
    (∃ s1, stopAppEv s appId = some (s1,
      [.terminate, .dropEntry, .releaseVram, .containerStop, .removeRoute, .notify])) ∧
    (heartbeatDeadCleanup s appId).2 =
      [.notify, .removeRoute, .dropEntry, .releaseVram] := by
  have hge : (List.isEmpty gpus) = false := by
    cases gpus with
    | nil => exact absurd rfl hg
    | cons a l => rfl
  refine ⟨?_, ?_, ?_⟩
  · simp [cleanupDeletedApp, releaseProcessEntryEv, releaseProcessEntry, h, hge,
      containerStopEv]
  · exact ⟨(releaseProcessEntryEv s appId).1.1,
      by simp [stopAppEv, releaseProcessEntryEv, releaseProcessEntry, h, hge,
        containerStopEv]⟩
  · simp [heartbeatDeadCleanup, releaseProcessEntryEv, releaseProcessEntry, h, hge]

/-- Witness for the amended C5: the concrete docker app of the
counterexample state. -/
theorem agent_cleanup_actual_order_witness :
    (cleanupDeletedApp c5St "a").2 =
      [.dropEntry, .releaseVram, .terminate, .containerStop, .removeRoute] ∧
    (∃ s1, stopAppEv c5St "a" = some (s1,
      [.terminate, .dropEntry, .releaseVram, .containerStop, .removeRoute, .notify])) ∧
    (heartbeatDeadCleanup c5St "a").2 =
      [.notify, .removeRoute, .dropEntry, .releaseVram] :=
  agent_cleanup_actual_order c5St "a" [0] 100 rfl (by decide)

/-- **C8.** `remove_route` on an id absent from the persisted route map is
a no-op: the document is unchanged and neither a save, nor a config
regeneration, nor a proxy reload happens. -/
theorem remove_route_unknown_id_noop
    (routes : List (String × RouteInfo)) (appId : String)
    (h : dget? routes appId = none) :
    removeRoute routes appId = (routes, []) := by
  simp [removeRoute, h]

/-- Witness for C8: removing an id from a map that holds only another app
leaves the map untouched and produces no effects. -/
theorem remove_route_unknown_id_noop_witness :
    removeRoute [("other", (⟨9000, none, none⟩ : RouteInfo))] "ghost" =
      ([("other", (⟨9000, none, none⟩ : RouteInfo))], []) :=
  remove_route_unknown_id_noop [("other", ⟨9000, none, none⟩)] "ghost" rfl

/-- **C9.** `save_status` on an existing row is a partial update: every
column whose argument is `None` keeps its stored value.  A status-only call
rewrites exactly the status column (port, last_heartbeat, name, url, gpus,
vram_required and the rest are preserved); a heartbeat-only call rewrites
exactly `last_heartbeat` (the status is preserved). -/
theorem save_status_partial_update
    (db : AppDb) (appId : String) (row : AppRow)
    (h : dget? db appId = some row) :
    (∀ s : String,
      ∃ db1, saveStatusDb db appId (some s) none none none none none none none
          none none none none = some db1 ∧
        dget? db1 appId = some { row with status := s }) ∧
    (∀ hb : Int,
      ∃ db2, saveStatusDb db appId none none none (some hb) none none none none
          none none none none = some db2 ∧
        dget? db2 appId = some { row with lastHeartbeat := some hb }) := by
  constructor
  · intro s
    refine ⟨dmodify db appId (fun r =>
      saveStatusRow r (some s) none none none none none none none none none none
        none), ?_, ?_⟩
    · simp only [saveStatusDb, h]
    · exact dget_dmodify_self _ h
  · intro hb
    refine ⟨dmodify db appId (fun r =>
      saveStatusRow r none none none (some hb) none none none none none none none
        none), ?_, ?_⟩
    · simp only [saveStatusDb, h]
    · exact dget_dmodify_self _ h

/-- Witness for C9: the concrete row of the `update_status` scenario, with
a status-only write to `stopped` and a heartbeat-only write at time 77. -/
theorem save_status_partial_update_witness :
    (∀ s : String,
      ∃ db1, saveStatusDb [("a", c3Row)] "a" (some s) none none none none none
          none none none none none none = some db1 ∧
        dget? db1 "a" = some { c3Row with status := s }) ∧
    (∀ hb : Int,
      ∃ db2, saveStatusDb [("a", c3Row)] "a" none none none (some hb) none none
          none none none none none none = some db2 ∧
        dget? db2 "a" = some { c3Row with lastHeartbeat := some hb }) :=
  save_status_partial_update [("a", c3Row)] "a" c3Row rfl

/-- **C10.** `add_route` with a falsy `allow_ips` (empty list) and falsy
`auth_header` (empty string) persists an entry holding only the port, and
the config emitted for that entry carries no allow/deny rules and no
auth-header check — only the unconditional proxy block, so the route is
reachable from any client IP without any header. -/
theorem add_route_falsy_acl_is_open (appId : String) (port : Int) :
    (addRoute [] appId port (some []) (some "")).1 =
      [(appId, (⟨port, none, none⟩ : RouteInfo))] ∧
    routeAllowDenyLines ⟨port, none, none⟩ = [] ∧
    routeAuthLines ⟨port, none, none⟩ = [] ∧
    routeLines appId ⟨port, none, none⟩ =
      routeBaseLines appId ⟨port, none, none⟩ ++ ["    \x7d"] ∧
    generateConfigLines (addRoute [] appId port (some []) (some "")).1 =
      generateConfigLines (addRoute [] appId port none none).1 := by
  refine ⟨rfl, rfl, rfl, ?_, rfl⟩
  simp [routeLines, routeAllowDenyLines, routeAuthLines, truthyList, truthyStr]

end Orch
